import Mathlib

/-!
Shallow embedding of the SQLite sink of grepros
(`src/grepros/outputs/sqlite.py`, class `SqliteSink`), together with
theorems settling the specification claims about it.

The embedding follows the Python source statement by statement:

* `Val` models SQL-level values, `Msg` models a runtime record with its
  introspected field tree (the tagged-variant representation the spec's
  design notes prescribe for the external type-introspection interface).
* `DB` models the persisted SQLite file: the three base tables plus the
  dynamically created per-type tables and per-topic views.
* `S` models the sink instance state: the connection handle, the
  in-memory topic/type catalogs, the schema map, the statement queue,
  the manual id counters, mirroring the attributes set in
  `SqliteSink.__init__`.
* Each private method of the class becomes one Lean function of the same
  name (`_make_name` becomes `makeName`, and so on); fallible paths
  return `Except`, and every database side effect is additionally
  recorded in an action trace (`DbAct`) so that temporal claims can be
  stated about what was executed, in which order.

Functions of the repository that live outside `src/` (the `rosapi`
introspection helpers, `common.quote`, the sink base classes) are
modelled from the spec where used; each such definition's doc comment
says so explicitly.
-/

namespace GreprosSqlite

/-- SQL-level value: NULL, integer, text, or a JSON-encoded list (the
sqlite3 adapter registered in `_init_db` serializes Python lists to
JSON; the list payload is kept structured here). -/
inductive Val where
  | null : Val
  | int (i : Int) : Val
  | str (s : String) : Val
  | list (vs : List Val) : Val

/-- Field value variants of a record's introspected field tree.
Modelled from the spec: the design notes direct that the external
introspection interface (`rosapi.iter_message_fields` and friends, not
under `src/`) be represented as a tagged-variant field tree with
variants Scalar, ArrayOfScalar, Message, ArrayOfMessage, each carrying
the scalar/element type name; message variants carry the nested type's
name, definition hash and field list. -/
inductive Fv where
  | scalar (v : Val) (stype : String) : Fv
  | arrS (vs : List Val) (stype : String) : Fv
  | msg (typename typehash : String) (fields : List (String × Fv)) : Fv
  | msgArr (typename typehash : String) (elems : List (List (String × Fv))) : Fv

/-- A runtime record: its type name, definition hash and field tree.
`typename`/`typehash` model `rosapi.get_message_type` and
`source.get_message_type_hash` of the introspection interface. -/
structure Msg where
  typename : String
  typehash : String
  fields : List (String × Fv)

/-- A nested message field as `iter_message_fields(msg, messages_only=True)`
yields it: either one scalar nested message or an array of them. -/
inductive MsgEntry where
  | one (sub : Msg) : MsgEntry
  | many (typename typehash : String) (subs : List Msg) : MsgEntry

/-- A flattened leaf as plain `iter_message_fields(msg)` yields it:
a scalar value, an array of builtin scalars, or an array of nested
messages (which the flattening cannot explode and yields whole). -/
inductive LeafEntry where
  | scalar (v : Val) (stype : String) : LeafEntry
  | arrS (vs : List Val) (stype : String) : LeafEntry
  | arrM (subs : List Msg) (stype : String) : LeafEntry

/-- Modelled from the spec: `iter_message_fields(msg, messages_only=True)`
of the introspection interface — the message-typed fields of the record,
with the field path and the nested type identity. -/
def msgFields (m : Msg) : List (String × MsgEntry) :=
  m.fields.filterMap fun (name, fv) =>
    match fv with
    | .msg tn th fs => some (name, .one ⟨tn, th, fs⟩)
    | .msgArr tn th elems => some (name, .many tn th (elems.map fun fs => ⟨tn, th, fs⟩))
    | _ => none

/-- Modelled from the spec: plain `iter_message_fields(msg)` — the
record's fields flattened to dotted leaf paths: scalar leaves and
scalar-array leaves recurse through scalar nested messages, arrays of
nested messages are yielded whole under their own path. `fuel` bounds
the recursion depth of the walk. -/
def leafFields (fuel : Nat) (prefixPath : String) (m : Msg) : List (String × LeafEntry) :=
  match fuel with
  | 0 => []
  | fuel + 1 =>
    m.fields.flatMap fun (name, fv) =>
      match fv with
      | .scalar v st => [(prefixPath ++ name, .scalar v st)]
      | .arrS vs st => [(prefixPath ++ name, .arrS vs st)]
      | .msg tn th fs => leafFields fuel (prefixPath ++ name ++ ".") ⟨tn, th, fs⟩
      | .msgArr tn th elems =>
          [(prefixPath ++ name, .arrM (elems.map fun fs => ⟨tn, th, fs⟩) tn)]

/-- Modelled from the spec: `rosapi.message_to_dict`, the textual/JSON
serialization used for arrays of nested messages when nesting is off.
The serialization itself is outside the core; only that some value is
produced matters here. -/
def messageToDict (m : Msg) : Val :=
  .str ("<" ++ m.typename ++ ">")

/-- Modelled from the spec: `rosapi.get_message_class(typename)()` — a
default-constructed instance of a type, used by `_process_type` when a
nested array is empty. -/
def defaultMsg (typename typehash : String) : Msg :=
  ⟨typename, typehash, []⟩

/-- Modelled from the spec: `source.get_message_definition(typename)` —
the full definition text of a type, opaque to the core. -/
def getMessageDefinition (typename : String) : String :=
  "definition of " ++ typename

/-- Modelled from the spec: `common.quote` — SQL identifier quoting.
Identifiers are used as given; quoting does not change identity. -/
def quote (name : String) : String :=
  name

/-- Whether a name starts with an underscore (`name.startswith("_")`). -/
def underscored (name : String) : Bool :=
  match name.data with
  | '_' :: _ => true
  | _ => false

/-- Whether a name contains a slash (the `LIKE '%/%'` filter of
`_load_schema`). -/
def slashed (name : String) : Bool :=
  '/' ∈ name.data

/-- Association-list lookup (Python dict read). -/
def alookup {κ α : Type} [DecidableEq κ] (k : κ) : List (κ × α) → Option α
  | [] => none
  | (k', v) :: rest => if k = k' then some v else alookup k rest

/-- Association-list write: replaces in place if the key exists, else
appends — Python dict assignment preserves insertion order. -/
def aset {κ α : Type} [DecidableEq κ] (k : κ) (v : α) : List (κ × α) → List (κ × α)
  | [] => [(k, v)]
  | (k', v') :: rest => if k = k' then (k, v) :: rest else (k', v') :: aset k v rest

/-- `dict.setdefault(sql, []).append(args)` on the statement queue:
appends to the entry of `sql`, creating it at the end if absent. -/
def queuePush {α : Type} (sql : String) (st : α) :
    List (String × List α) → List (String × List α)
  | [] => [(sql, [st])]
  | (q, l) :: rest =>
      if sql = q then (q, l ++ [st]) :: rest else (q, l) :: queuePush sql st rest

/-- A row of the `topics` base table, and equally an in-memory entry of
`self._topics` (fresh entries carry the defaults of the columns the
`INSERT INTO topics` statement leaves unset). -/
structure TopicRow where
  id : Nat
  name : String
  typ : String
  md5 : String
  table_name : String
  view_name : Option String
  count : Nat
  dt_first : Option Int
  dt_last : Option Int
  timestamp_first : Option Int
  timestamp_last : Option Int
deriving DecidableEq

/-- A row of the `types` base table / an in-memory entry of `self._types`.
`nested_tables` is the JSON map of nested field path to child table name. -/
structure TypeRow where
  id : Nat
  typ : String
  md5 : String
  definition : String
  table_name : String
  nested_tables : List (String × String)
deriving DecidableEq

/-- A row of the `messages` base table. -/
structure MsgRow where
  topicId : Nat
  timestamp : Int
  data : Val
  topic : String
  typ : String
  dt : Int
  yaml : Val

/-- A dynamically created per-type table: its column list (name and
declared type, in creation order) and its rows, each row an assoc list
of column name to value as the insert statements bind them. -/
structure TypeTable where
  cols : List (String × String)
  rows : List (List (String × Val))

/-- A per-topic view: the table it selects from, the selected columns
and the `_topic` filter literal. -/
structure ViewDef where
  table : String
  cols : List String
  topicFilter : String

/-- The persisted SQLite file: three base tables plus the dynamic
per-type tables and per-topic views, keyed by their names. -/
structure DB where
  messages : List MsgRow
  topics : List TopicRow
  types : List TypeRow
  typeTables : List (String × TypeTable)
  views : List (String × ViewDef)

/-- The empty store as `BASE_SCHEMA` leaves a fresh file. -/
def emptyDB : DB :=
  ⟨[], [], [], [], []⟩

/-- Database actions, recorded in execution order so that claims about
what is executed, committed or released can be stated. -/
inductive DbAct where
  | script (tag : String) : DbAct
  | exec (tag : String) : DbAct
  | query (tag : String) : DbAct
  | createTypeTable (typekey : String × String) (table : String) : DbAct
  | createView (view : String) : DbAct
  | alter (table : String) : DbAct
  | execMany (sql : String) (n : Nat) : DbAct
  | commit : DbAct
  | closeConn : DbAct
deriving DecidableEq

/-- A parameterized statement as `_ensure_execute` receives it: the
four templates that go through the batching queue. -/
inductive Stmt where
  | insertMessage (row : MsgRow) : Stmt
  | updateTopic (name typ : String) (dt ts : Int) : Stmt
  | insertTypedRow (table : String) (cols : List String) (args : List Val) : Stmt
  | updateSubIds (table : String) (sets : List (String × Val)) (id : Option Nat) : Stmt

/-- The SQL text of `INSERT_MESSAGE` (the queue key of message inserts). -/
def insertMessageSql : String :=
  "INSERT INTO messages (topic_id, timestamp, data, topic, type, dt, yaml) VALUES (:topic_id, :timestamp, :data, :topic, :type, :dt, :yaml)"

/-- The SQL text of `UPDATE_TOPIC` (the queue key of topic updates). -/
def updateTopicSql : String :=
  "UPDATE topics SET count = count + 1, dt_first = MIN(COALESCE(dt_first, :dt), :dt), dt_last = MAX(COALESCE(dt_last, :dt), :dt), timestamp_first = MIN(COALESCE(timestamp_first, :timestamp), :timestamp), timestamp_last = MAX(COALESCE(timestamp_last, :timestamp), :timestamp) WHERE name = :name AND type = :type"

/-- The SQL text `_populate_type` renders for a per-type insert; it is
the queue key, so batches group by table and column list. -/
def insertTypedRowSql (table : String) (cols : List String) : String :=
  "INSERT INTO " ++ quote table ++ " (" ++ String.intercalate ", " (cols.map quote)
    ++ ") VALUES (" ++ String.intercalate ", " (cols.map fun _ => "?") ++ ")"

/-- The SQL text `_populate_type` renders for the parent-row update
setting nested-array fields to their child id lists. -/
def updateSubIdsSql (table : String) (setCols : List String) : String :=
  "UPDATE " ++ quote table ++ " SET "
    ++ String.intercalate ", " (setCols.map fun c => quote c ++ " = ?")
    ++ " WHERE _id = ?"

/-- The queue key of a statement. -/
def stmtSql : Stmt → String
  | .insertMessage _ => insertMessageSql
  | .updateTopic _ _ _ _ => updateTopicSql
  | .insertTypedRow table cols _ => insertTypedRowSql table cols
  | .updateSubIds table sets _ => updateSubIdsSql table (sets.map (·.1))

/-- One matching row's update under `UPDATE_TOPIC`: count incremented,
first columns set to `MIN(COALESCE(prior, new), new)`, last columns to
the matching `MAX` — both the wall-clock and the integer form. -/
def bumpTopicRow (dt ts : Int) (r : TopicRow) : TopicRow :=
  { r with
    count := r.count + 1
    dt_first := some (min (r.dt_first.getD dt) dt)
    dt_last := some (max (r.dt_last.getD dt) dt)
    timestamp_first := some (min (r.timestamp_first.getD ts) ts)
    timestamp_last := some (max (r.timestamp_last.getD ts) ts) }

/-- The effect of `UPDATE_TOPIC` on the topics table: every row whose
`name` and `type` columns equal the bound parameters is bumped; the
statement carries no hash, so rows are matched by name and type name
only. -/
def applyUpdateTopic (name typ : String) (dt ts : Int)
    (rows : List TopicRow) : List TopicRow :=
  rows.map fun r => if r.name = name ∧ r.typ = typ then bumpTopicRow dt ts r else r

/-- SQL comparison of a stored `_id` cell against a bound id value. -/
def valIsId (v : Val) (id : Option Nat) : Bool :=
  match v, id with
  | .int i, some n => i = (n : Int)
  | _, _ => false

/-- The effect of one queued statement on the database, as SQLite
executes it: inserts append, updates map over rows, statements against
a missing table fail. -/
def applyStmt (db : DB) : Stmt → Except String DB
  | .insertMessage row => .ok { db with messages := db.messages ++ [row] }
  | .updateTopic name typ dt ts =>
      .ok { db with topics := applyUpdateTopic name typ dt ts db.topics }
  | .insertTypedRow table cols args =>
      match alookup table db.typeTables with
      | none => .error ("no such table: " ++ table)
      | some tt =>
          let tt' : TypeTable := { tt with rows := tt.rows ++ [cols.zip args] }
          .ok { db with typeTables := aset table tt' db.typeTables }
  | .updateSubIds table sets id =>
      match alookup table db.typeTables with
      | none => .error ("no such table: " ++ table)
      | some tt =>
          let upd := fun (row : List (String × Val)) =>
            if (alookup "_id" row).elim false (valIsId · id) then
              sets.foldl (fun r (c, v) => aset c v r) row
            else row
          let tt' : TypeTable := { tt with rows := tt.rows.map upd }
          .ok { db with typeTables := aset table tt' db.typeTables }

/-- Executes a batch of statements in order (`executemany`). -/
def applyStmts (db : DB) : List Stmt → Except String DB
  | [] => .ok db
  | st :: rest =>
      match applyStmt db st with
      | .error e => .error e
      | .ok db' => applyStmts db' rest

/-- Result of a sink operation: the database actions it executed, in
order, paired with its outcome; a Python exception becomes
`Except.error` and aborts the rest of the operation (the actions
already executed stay in the trace). -/
abbrev Re (α : Type) : Type := List DbAct × Except String α

/-- Sequencing of operations: traces accumulate, errors short-circuit. -/
def bindRe {α β : Type} (x : Re α) (f : α → Re β) : Re β :=
  match x with
  | (tr, .error e) => (tr, .error e)
  | (tr, .ok a) =>
      match f a with
      | (tr2, r) => (tr ++ tr2, r)

/-- An operation that does nothing and returns `a`. -/
def retRe {α : Type} (a : α) : Re α :=
  ([], .ok a)

/-- Prepends already-executed actions to an operation's trace. -/
def prependTr {α : Type} (tr1 : List DbAct) (x : Re α) : Re α :=
  (tr1 ++ x.1, x.2)

/-- The sink instance state, mirroring `SqliteSink.__init__`: the target
file, the optional open connection (`self._db`), the configured nesting
mode and commit interval, and the dict attributes `_topics`, `_types`,
`_checkeds` (split by key kind: topic keys and type hashes), the
statement queue, `_id_counters`, `_nested_counts`, `_schema`, plus the
base sink's message count and the close-printed flag. -/
structure S where
  file : DB
  conn : Option DB
  nesting : Option String
  commitInterval : Nat
  topics : List ((String × String) × TopicRow)
  types : List ((String × String) × TypeRow)
  checkedTopics : List (String × String)
  checkedTypes : List String
  sqlQueue : List (String × List Stmt)
  idCounters : List (String × Nat)
  nestedCounts : List (String × Nat)
  schema : List ((String × String) × List String)
  counts : Nat
  closePrinted : Bool

/-- A freshly constructed sink over a target file: no connection, empty
catalogs. -/
def freshSink (nesting : Option String) (commitInterval : Nat) (file : DB) : S :=
  { file := file, conn := none, nesting := nesting, commitInterval := commitInterval,
    topics := [], types := [], checkedTopics := [], checkedTypes := [], sqlQueue := [],
    idCounters := [], nestedCounts := [], schema := [], counts := 0, closePrinted := false }

/-- `MESSAGE_TYPE_TOPICCOLS` of the source. -/
def MESSAGE_TYPE_TOPICCOLS : List (String × String) :=
  [("_topic", "TEXT"), ("_topic_id", "BIGINT")]

/-- `MESSAGE_TYPE_BASECOLS` of the source. -/
def MESSAGE_TYPE_BASECOLS : List (String × String) :=
  [("_dt", "TIMESTAMP"), ("_timestamp", "INTEGER"),
   ("_id", "INTEGER NOT NULL PRIMARY KEY AUTOINCREMENT")]

/-- `MESSAGE_TYPE_NESTCOLS` of the source: the parent-linkage columns
added when nesting output is enabled. -/
def MESSAGE_TYPE_NESTCOLS : List (String × String) :=
  [("_parent_type", "TEXT"), ("_parent_id", "INTEGER")]

/-- Whether some topic-catalog row under a different hash already uses
`name` as its table or view name — the collision test of `_make_name`,
which consults only `self._topics`. -/
def nameTaken (topics : List ((String × String) × TopicRow))
    (name typehash : String) : Bool :=
  topics.any fun (_, r) =>
    r.md5 ≠ typehash && (r.table_name = name || r.view_name = some name)

/-- `_make_name(category, name, typehash)`: returns `name` unless a
topic-catalog row under a different definition hash already holds it as
table or view name, in which case the hash is suffixed. The category
argument is accepted and unused, exactly as in the source. -/
def makeName (topics : List ((String × String) × TopicRow))
    (category name typehash : String) : String :=
  let _ := category
  if nameTaken topics name typehash then name ++ " (" ++ typehash ++ ")" else name

/-- The `MAX(id)` aggregate of `_get_next_id`'s seed query over a table's
rows, `COALESCE`d with 0: the maximum of the `id` cells. -/
def maxIdCell (tt : TypeTable) : Nat :=
  tt.rows.foldl
    (fun acc row =>
      match (alookup "id" row : Option Val) with
      | some (Val.int i) => max acc i.toNat
      | _ => acc) 0

/-- `_get_next_id(table)`: when the in-memory counter is absent or zero,
seeds it from `SELECT COALESCE(MAX(id), 0) AS id FROM table` — note the
query names a column `id`, while the type tables declare their row-id
column as `_id`, so the query fails against a table that has no field
of its own called `id` — then increments the counter in memory and
returns it. -/
def getNextId (s : S) (table : String) : Re (Nat × S) :=
  let seedSql := "SELECT COALESCE(MAX(id), 0) AS id FROM " ++ quote table
  let seeded : Re (Nat × S) :=
    match alookup table s.idCounters with
    | some (n + 1) => ([], .ok (n + 1, s))
    | _ =>
        match s.conn with
        | none => ([], .error "database handle is closed")
        | some db =>
            match alookup table db.typeTables with
            | none => ([DbAct.query seedSql], .error ("no such table: " ++ table))
            | some tt =>
                if "id" ∈ tt.cols.map (·.1) then
                  ([DbAct.query seedSql],
                   .ok (maxIdCell tt, { s with idCounters := aset table (maxIdCell tt) s.idCounters }))
                else
                  ([DbAct.query seedSql], .error "no such column: id")
  bindRe seeded fun (n, s') =>
    ([], .ok (n + 1, { s' with idCounters := aset table (n + 1) s'.idCounters }))

/-- `_ensure_execute(sql, args)`: queues the statement under its SQL
text when a commit interval is configured, else executes it at once. -/
def ensureExecute (s : S) (st : Stmt) : Re S :=
  if s.commitInterval ≠ 0 then
    ([], .ok { s with sqlQueue := queuePush (stmtSql st) st s.sqlQueue })
  else
    match s.conn with
    | none => ([], .error "database handle is closed")
    | some db =>
        match applyStmt db st with
        | .error e => ([DbAct.exec (stmtSql st)], .error e)
        | .ok db' => ([DbAct.exec (stmtSql st)], .ok { s with conn := some db' })

/-- Total number of pending statements across all queue entries —
`sum(len(v) for v in self._sql_queue.values())`. -/
def queueTotal (q : List (String × List Stmt)) : Nat :=
  (q.map (·.2.length)).sum

/-- Executes every queued batch in insertion order, one `executemany`
per SQL key. -/
def flushQueue (db : DB) : List (String × List Stmt) → Re DB
  | [] => ([], .ok db)
  | (sql, stmts) :: rest =>
      match applyStmts db stmts with
      | .error e => ([DbAct.execMany sql stmts.length], .error e)
      | .ok db' =>
          match flushQueue db' rest with
          | (tr, r) => (DbAct.execMany sql stmts.length :: tr, r)

/-- The per-entry walk of `_ensure_columns`: for every schema entry
lacking some of the given columns, issues an `ALTER TABLE ... ADD
COLUMN` (SQLite rejects adding a column that already exists) and
updates both the stored table and the in-memory layout. -/
def ensureColumnsGo (cols : List (String × String))
    (types : List ((String × String) × TypeRow)) (db : DB) :
    List ((String × String) × List String) →
    Re (DB × List ((String × String) × List String))
  | [] => ([], .ok (db, []))
  | (tk, typecols) :: rest =>
      let missing := cols.filter fun (c, _) => c ∉ typecols
      if missing.isEmpty then
        match ensureColumnsGo cols types db rest with
        | (tr, .error e) => (tr, .error e)
        | (tr, .ok (db', r)) => (tr, .ok (db', (tk, typecols) :: r))
      else
        match alookup tk types with
        | none => ([], .error "KeyError: types")
        | some trow =>
            match alookup trow.table_name db.typeTables with
            | none =>
                ([DbAct.alter trow.table_name], .error ("no such table: " ++ trow.table_name))
            | some tt =>
                if missing.any (fun (c, _) => c ∈ tt.cols.map (·.1)) then
                  ([DbAct.alter trow.table_name], .error "duplicate column name")
                else
                  let tt' : TypeTable := { tt with cols := tt.cols ++ missing }
                  let db' := { db with typeTables := aset trow.table_name tt' db.typeTables }
                  match ensureColumnsGo cols types db' rest with
                  | (tr, .error e) => (DbAct.alter trow.table_name :: tr, .error e)
                  | (tr, .ok (db'', r)) =>
                      (DbAct.alter trow.table_name :: tr,
                       .ok (db'', (tk, typecols ++ missing.map (·.1)) :: r))

/-- `_ensure_columns(cols)`: adds the columns to every type table whose
in-memory layout lacks them. -/
def ensureColumns (s : S) (cols : List (String × String)) : Re S :=
  match s.conn with
  | none => ([], .error "database handle is closed")
  | some db =>
      match ensureColumnsGo cols s.types db s.schema with
      | (tr, .error e) => (tr, .error e)
      | (tr, .ok (db', schema')) =>
          (tr, .ok { s with conn := some db', schema := schema' })

/-- The dynamic-table walk of `_load_schema`: for every table whose name
contains a slash, reads its columns, keeps the non-underscore ones, and
records them under the type key of the first types-catalog row bearing
that table name (`next(...)` raises when there is none). -/
def loadSchemaTables (types : List ((String × String) × TypeRow)) :
    List (String × TypeTable) → List ((String × String) × List String) →
    Re (List ((String × String) × List String))
  | [], schema => ([], .ok schema)
  | (name, tt) :: rest, schema =>
      let pragmaAct := DbAct.query ("PRAGMA table_info(" ++ quote name ++ ")")
      match types.find? (fun (_, x) => x.table_name = name) with
      | none => ([pragmaAct], .error "StopIteration")
      | some (_, trow) =>
          let cols := (tt.cols.map (·.1)).filter fun c => ¬ underscored c
          match loadSchemaTables types rest (aset (trow.typ, trow.md5) cols schema) with
          | (tr, r) => (pragmaAct :: tr, r)

/-- `_load_schema`: loads the topics and types base tables into the
in-memory catalogs, then the dynamic tables' column layouts. -/
def loadSchema (s : S) : Re S :=
  match s.conn with
  | none => ([], .error "database handle is closed")
  | some db =>
      let topics := db.topics.foldl (fun acc row => aset (row.name, row.md5) row acc) s.topics
      let types := db.types.foldl (fun acc row => aset (row.typ, row.md5) row acc) s.types
      let dyn := db.typeTables.filter fun (name, _) => slashed name
      let baseActs := [DbAct.query "SELECT * FROM topics", DbAct.query "SELECT * FROM types"]
      match loadSchemaTables types dyn s.schema with
      | (tr, .error e) => (baseActs ++ tr, .error e)
      | (tr, .ok schema') =>
          (baseActs ++ tr, .ok { s with topics := topics, types := types, schema := schema' })

/-- `_init_db`: clears every dict attribute and the close-printed flag,
opens the connection on the persisted file, ensures the base schema,
loads the catalogs, and — when nesting is enabled — appends the nesting
linkage columns to every already known type table. -/
def initDb (s : S) : Re S :=
  let s1 : S :=
    { s with topics := [], types := [], checkedTopics := [], checkedTypes := [],
             sqlQueue := [], idCounters := [], nestedCounts := [], schema := [],
             counts := 0, closePrinted := false, conn := some s.file }
  bindRe (([DbAct.script "BASE_SCHEMA"], .ok s1) : Re S) fun s2 =>
    bindRe (loadSchema s2) fun s3 =>
      if s3.nesting.isSome then ensureColumns s3 MESSAGE_TYPE_NESTCOLS else retRe s3

/-- The declared column type of a flattened leaf, as `_process_type`
renders it: the scalar type name, with `[]` appended for list values. -/
def leafColType : LeafEntry → String
  | .scalar _ st => quote st
  | .arrS _ st => quote (st ++ "[]")
  | .arrM _ st => quote (st ++ "[]")

/-- The column list `_process_type` synthesizes for a type's table
(lines 332-337 of the source): the flattened leaf columns in field
order, then the topic columns, the base columns, and — whenever nesting
is enabled — the parent-linkage columns, for every type alike. -/
def typeTableCols (nesting : Option String) (fuel : Nat) (m : Msg) : List (String × String) :=
  ((leafFields fuel "" m).map fun (path, leaf) => (path, leafColType leaf))
    ++ MESSAGE_TYPE_TOPICCOLS ++ MESSAGE_TYPE_BASECOLS
    ++ (if nesting.isSome then MESSAGE_TYPE_NESTCOLS else [])

/-- The nested-field loop of `_process_type`: skips scalar nested
messages unless the mode is `all`, records the child's table name in
the accumulated `nested_tables` map, and recurses (through `recur`)
into the first array element — or a default instance when the array is
empty — respectively into the scalar child itself. -/
def ptChildren (recur : S → Msg → Re S) :
    S → List (String × String) → List (String × MsgEntry) →
    Re (S × List (String × String))
  | s, nt, [] => ([], .ok (s, nt))
  | s, nt, (path, entry) :: rest =>
      match entry with
      | .one sub =>
          if s.nesting ≠ some "all" then ptChildren recur s nt rest
          else
            let nt' := aset path (makeName s.topics "table" sub.typename sub.typehash) nt
            bindRe (recur s sub) fun s' => ptChildren recur s' nt' rest
      | .many tn th subs =>
          let nt' := aset path (makeName s.topics "table" tn th) nt
          let sub := subs.headD (defaultMsg tn th)
          bindRe (recur s sub) fun s' => ptChildren recur s' nt' rest

/-- The nested-tables write-back at the end of `_process_type`: when
the collected map is non-empty, issues the `UPDATE types SET
nested_tables` statement and mirrors it in memory. -/
def ptUpdateNested (typekey : String × String) (nt : List (String × String))
    (s3 : S) : Re S :=
  if nt.isEmpty then ([], .ok s3)
  else
    match alookup typekey s3.types, s3.conn with
    | some trow3, some db3 =>
        let newrow := { trow3 with nested_tables := nt }
        let dbTypes := db3.types.map fun x =>
          if x.id = trow3.id then { x with nested_tables := nt } else x
        let db3' : DB := { db3 with types := dbTypes }
        ([DbAct.exec "UPDATE types SET nested_tables"],
         .ok { s3 with types := aset typekey newrow s3.types, conn := some db3' })
    | _, _ => ([], .error "KeyError: types")

/-- The body of `_process_type` after the types-row step: creates the
per-type table (drop-if-exists and create) when the type key has no
schema entry, walks the nested fields under the active mode through
`recur`, writes back the nested-tables map, and marks the type hash
checked. -/
def processTypeTail (recur : S → Msg → Re S) (fuelLeaf : Nat)
    (typekey : String × String) (m : Msg) (s1 : S) : Re S :=
  match alookup typekey s1.types, s1.conn with
  | some trow, some db1 =>
      let step2 : List DbAct × S :=
        if (alookup typekey s1.schema).isNone then
          let cols := typeTableCols s1.nesting fuelLeaf m
          let tt : TypeTable := ⟨cols, []⟩
          let db1' : DB := { db1 with typeTables := aset trow.table_name tt db1.typeTables }
          ([DbAct.createTypeTable typekey trow.table_name],
           { s1 with schema := aset typekey (cols.map (·.1)) s1.schema, conn := some db1' })
        else ([], s1)
      let nesteds := if step2.2.nesting.isSome then msgFields m else []
      match ptChildren recur step2.2 trow.nested_tables nesteds with
      | (tr3, .error e) => (step2.1 ++ tr3, .error e)
      | (tr3, .ok (s3, nt)) =>
          match ptUpdateNested typekey nt s3 with
          | (tr4, .error e) => (step2.1 ++ tr3 ++ tr4, .error e)
          | (tr4, .ok s4) =>
              (step2.1 ++ tr3 ++ tr4,
               .ok { s4 with checkedTypes := s4.checkedTypes ++ [m.typehash] })
  | _, _ => ([], .error "KeyError: types")

/-- `_process_type(msg)`: short-circuits when the type hash was already
checked this session; otherwise inserts the types row when the type key
is unseen and runs the tail (table creation, nested walk, nested-tables
write-back, checked mark). `fuel` bounds the recursion into child
types. -/
def processType : Nat → S → Msg → Re S
  | 0, _, _ => ([], .error "recursion limit exceeded")
  | fuel + 1, s0, m =>
      let typekey := (m.typename, m.typehash)
      if m.typehash ∈ s0.checkedTypes then ([], .ok s0)
      else
        match s0.conn with
        | none => ([], .error "database handle is closed")
        | some db0 =>
            let step1 : List DbAct × S :=
              if (alookup typekey s0.types).isNone then
                let table_name := makeName s0.topics "table" m.typename m.typehash
                let id := (db0.types.map (·.id)).foldl max 0 + 1
                let row : TypeRow :=
                  ⟨id, m.typename, m.typehash, getMessageDefinition m.typename, table_name, []⟩
                let db0' : DB := { db0 with types := db0.types ++ [row] }
                ([DbAct.exec "INSERT_TYPE"],
                 { s0 with types := aset typekey row s0.types, conn := some db0' })
              else ([], s0)
            prependTr step1.1 (processTypeTail (processType fuel) (fuel + 1) typekey m step1.2)

/-- `_process_topic(topic, msg)`: on first sight of a (topic, hash) pair
inserts the topics row, processes the type, creates the per-topic view
(selecting the non-underscore columns plus the whitelisted base
columns, filtered to the topic) and records the view name; repeat
sights short-circuit on the checked set. -/
def processTopic (fuel : Nat) (s0 : S) (topic : String) (m : Msg) : Re S :=
  let typename := m.typename
  let typehash := m.typehash
  let topickey := (topic, typehash)
  if topickey ∈ s0.checkedTopics then ([], .ok s0)
  else
    match s0.conn with
    | none => ([], .error "database handle is closed")
    | some db0 =>
        let isNew := (alookup topickey s0.topics).isNone
        let (tr1, s1) :=
          if isNew then
            let table_name := makeName s0.topics "table" typename typehash
            let id := (db0.topics.map (·.id)).foldl max 0 + 1
            let row : TopicRow :=
              ⟨id, topic, typename, typehash, table_name, none, 0, none, none, none, none⟩
            ([DbAct.exec "INSERT_TOPIC"],
             { s0 with topics := aset topickey row s0.topics,
                       conn := some { db0 with topics := db0.topics ++ [row] } })
          else ([], s0)
        match processType fuel s1 m with
        | (tr2, .error e) => (tr1 ++ tr2, .error e)
        | (tr2, .ok s2) =>
            match
              (if isNew then
                 match alookup topickey s2.topics, s2.conn with
                 | some trow, some db2 =>
                     let view_name := makeName s2.topics "view" topic typehash
                     let basecols := MESSAGE_TYPE_BASECOLS.map (·.1)
                     let cols := ((alookup (typename, typehash) s2.schema).getD []).filter
                       fun c => ¬ underscored c || c ∈ basecols
                     let vdef : ViewDef := ⟨trow.table_name, cols, topic⟩
                     let newrow := { trow with view_name := some view_name }
                     let dbTopics := db2.topics.map fun x =>
                       if x.id = trow.id then { x with view_name := some view_name } else x
                     let db3 : DB :=
                       { db2 with views := aset view_name vdef db2.views, topics := dbTopics }
                     ([DbAct.createView view_name, DbAct.exec "UPDATE_TOPIC_VIEW"],
                      .ok { s2 with topics := aset topickey newrow s2.topics, conn := some db3 })
                 | _, _ => ([], .error "KeyError: topics")
               else ([], .ok s2) : Re S)
            with
            | (tr3, .error e) => (tr1 ++ tr2 ++ tr3, .error e)
            | (tr3, .ok s3) =>
                (tr1 ++ tr2 ++ tr3,
                 .ok { s3 with checkedTopics := s3.checkedTopics ++ [topickey] })

/-- The per-array walk of `_populate_type`'s child loop: recurses into
every array element, collecting the returned ids in order. -/
def popChildrenArr (recurOne : S → Msg → Re (Option Nat × S)) :
    S → List (Option Nat) → List Msg → Re (List (Option Nat) × S)
  | s, acc, [] => ([], .ok (acc, s))
  | s, acc, sub :: rest =>
      bindRe (recurOne s sub) fun (subid, s') =>
        popChildrenArr recurOne s' (acc ++ [subid]) rest

/-- The nested-field loop of `_populate_type`: skips scalar nested
messages unless the mode is `all`, recurses into every child record,
and collects the ids of array children per field path. -/
def popChildren (recurOne : String → S → Msg → Re (Option Nat × S)) :
    S → List (String × List (Option Nat)) → List (String × MsgEntry) →
    Re (S × List (String × List (Option Nat)))
  | s, subids, [] => ([], .ok (s, subids))
  | s, subids, (path, entry) :: rest =>
      match entry with
      | .one sub =>
          if s.nesting ≠ some "all" then popChildren recurOne s subids rest
          else
            bindRe (recurOne sub.typename s sub) fun (_, s') =>
              popChildren recurOne s' subids rest
      | .many tn _ subs =>
          let subids1 := aset path ([] : List (Option Nat)) subids
          bindRe (popChildrenArr (recurOne tn) s [] subs) fun (ids, s') =>
            popChildren recurOne s' (aset path ids subids1) rest

/-- Modelled from the spec: `rosapi.get_message_data` — the raw
serialized payload, opaque to the core. -/
def messageData (m : Msg) : Val :=
  .str ("raw:" ++ m.typename)

/-- Modelled from the spec: `TextSinkMixin.format_message` — the
rendered text form of a record, opaque to the core. -/
def formatMessage (m : Msg) : Val :=
  .str ("yaml:" ++ m.typename)

/-- `_populate_type(topic, typename, msg, stamp, ...)`: inserts the
per-type row of the message (with the manually allocated id and the
parent linkage under nesting), recurses into nested children passing
its own id as their parent id, and finally updates its row's
nested-array columns with the collected child id lists. Returns the
allocated id. -/
def populateType : Nat → S → String → String → Msg → Int →
    Option String → Option String → Option Nat → Re (Option Nat × S)
  | 0, _, _, _, _, _, _, _, _ => ([], .error "recursion limit exceeded")
  | fuel + 1, s0, topic, typename, m, stamp, rootHash, parentType, parentId =>
      let typehash := m.typehash
      let root := rootHash.getD typehash
      match alookup (topic, root) s0.topics with
      | none => ([], .error "KeyError: topics")
      | some topicRow =>
          match alookup (typename, typehash) s0.types with
          | none => ([], .error "KeyError: types")
          | some typeRow =>
              let table_name := typeRow.table_name
              let leaves := leafFields (fuel + 1) "" m
              let colsU := leaves.map (·.1)
              let argsU := leaves.map fun (_, leaf) =>
                match leaf with
                | .scalar v _ => v
                | .arrS vs _ => Val.list vs
                | .arrM subs _ =>
                    if s0.nesting.isSome then Val.list []
                    else Val.list (subs.map messageToDict)
              let idStep : Re (Option Nat × S) :=
                if s0.nesting.isSome then
                  bindRe (getNextId s0 table_name) fun (n, s) => ([], .ok (some n, s))
                else ([], .ok (none, s0))
              bindRe idStep fun (myid, s1) =>
                let myargs := [Val.str topic, Val.int topicRow.id, Val.int stamp, Val.int stamp]
                  ++ (if s1.nesting.isSome then
                        [myid.elim Val.null fun n => Val.int n,
                         parentType.elim Val.null Val.str,
                         parentId.elim Val.null fun n => Val.int n]
                      else [])
                let cols := colsU ++ ["_topic", "_topic_id", "_dt", "_timestamp"]
                  ++ (if s1.nesting.isSome then ["_id", "_parent_type", "_parent_id"] else [])
                bindRe (ensureExecute s1 (.insertTypedRow table_name cols (argsU ++ myargs))) fun s2 =>
                  let nc := aset typehash ((alookup typehash s2.nestedCounts).getD 0 + 1) s2.nestedCounts
                  let s3 :=
                    if parentType.isSome then { s2 with nestedCounts := nc } else s2
                  let nesteds := if s3.nesting.isSome then msgFields m else []
                  let recurOne := fun (tn : String) (s : S) (sub : Msg) =>
                    populateType fuel s topic tn sub stamp (some root) (some typename) myid
                  bindRe (popChildren recurOne s3 [] nesteds) fun (s4, subids) =>
                    if subids.isEmpty then ([], .ok (myid, s4))
                    else
                      let sets := subids.map fun (p, ids) =>
                        (p, Val.list (ids.map fun o => o.elim Val.null fun n => Val.int n))
                      bindRe (ensureExecute s4 (.updateSubIds table_name sets myid)) fun s5 =>
                        ([], .ok (myid, s5))

/-- Recursion bound for message processing; any bound larger than the
nesting depth of the processed records is equivalent. -/
def bigFuel : Nat :=
  1000

/-- `_process_message(topic, msg, stamp)`: queues the messages-table
insert and the topic update, populates the per-type tables, and — in
batched mode — executes and commits every queued batch once the total
pending statement count has reached the commit interval. -/
def processMessage (s0 : S) (topic : String) (m : Msg) (stamp : Int) : Re S :=
  let typename := m.typename
  let typehash := m.typehash
  match alookup (topic, typehash) s0.topics with
  | none => ([], .error "KeyError: topics")
  | some topicRow =>
      let mrow : MsgRow :=
        ⟨topicRow.id, stamp, messageData m, topic, typename, stamp, formatMessage m⟩
      bindRe (ensureExecute s0 (.insertMessage mrow)) fun s1 =>
        bindRe (ensureExecute s1 (.updateTopic topic typename stamp stamp)) fun s2 =>
          bindRe (populateType bigFuel s2 topic typename m stamp none none none) fun (_, s3) =>
            if s3.commitInterval ≠ 0 then
              if queueTotal s3.sqlQueue ≥ s3.commitInterval then
                match s3.conn with
                | none => ([], .error "database handle is closed")
                | some db =>
                    match flushQueue db s3.sqlQueue with
                    | (tr, .error e) => (tr, .error e)
                    | (tr, .ok db') =>
                        (tr ++ [DbAct.commit],
                         .ok { s3 with sqlQueue := [], conn := some db' })
              else ([], .ok s3)
            else ([], .ok s3)

/-- `emit(topic, index, stamp, msg, match)`: lazily opens the database
on first message, then processes topic and message; the sink base's
bookkeeping counts the emitted message. -/
def emitMsg (s : S) (topic : String) (stamp : Int) (m : Msg) : Re S :=
  bindRe (if s.conn.isNone then initDb s else retRe s) fun s1 =>
    bindRe (processTopic bigFuel s1 topic m) fun s2 =>
      bindRe (processMessage s2 topic m stamp) fun s3 =>
        retRe { s3 with counts := s3.counts + 1 }

/-- `close()`: if a connection is open, executes every remaining queued
batch and then closes the connection — no commit statement is issued
between those two steps — and marks the handle absent; afterwards the
summary-printing flag is updated. The model keeps the connection state
as the persisted file on close; Python's sqlite3 additionally discards
the changes of a still-open implicit transaction when a connection is
closed without commit, which is why the presence or absence of a
`commit` action in the trace is what the claims inspect. -/
def closeSink (s : S) : Re S :=
  let step1 : Re S :=
    match s.conn with
    | none => ([], .ok s)
    | some db =>
        match flushQueue db s.sqlQueue with
        | (tr, .error e) => (tr, .error e)
        | (tr, .ok db') =>
            (tr ++ [DbAct.closeConn],
             .ok { s with sqlQueue := [], conn := none, file := db' })
  bindRe step1 fun s1 =>
    retRe (if ¬ s1.closePrinted ∧ s1.counts ≠ 0 then { s1 with closePrinted := true } else s1)

/-! ## Concrete scenario data -/

/-- A flat record: one builtin scalar field, no nesting. -/
def flatMsg : Msg :=
  ⟨"pkg/Flat", "hf", [("x", .scalar (.int 7) "int32")]⟩

/-- The record of the nesting scenario: one scalar nested message field
and one array field of two nested messages. -/
def c3msg : Msg :=
  ⟨"pkg/M", "hm",
   [("a", .msg "pkg/C1" "hc1" [("y", .scalar (.int 2) "int32")]),
    ("b", .msgArr "pkg/C2" "hc2"
      [[("z", .scalar (.int 3) "int32")], [("z", .scalar (.int 4) "int32")]])]⟩

/-- First parent type: its nested child type is ("pkg/Point", "h1"). -/
def parent1 : Msg :=
  ⟨"pkg/P1", "hp1", [("c", .msg "pkg/Point" "h1" [("x", .scalar (.int 1) "int32")])]⟩

/-- Second parent type: its nested child type shares the display name
"pkg/Point" but has the distinct hash "h2". -/
def parent2 : Msg :=
  ⟨"pkg/P2", "hp2", [("c", .msg "pkg/Point" "h2" [("x", .scalar (.int 1) "int32")])]⟩

/-- A fresh nesting-mode-"all" session after opening an empty store and
processing the first topic: the child type ("pkg/Point", "h1") is now
catalogued with table "pkg/Point". -/
def scnAfterFirst : Re S :=
  bindRe (initDb (freshSink (some "all") 1000 emptyDB)) fun s =>
    processTopic 50 s "/a" parent1

/-- The same session continued with the second topic, whose child type
("pkg/Point", "h2") is then named and created. -/
def scnSecond : Re S :=
  match scnAfterFirst.2 with
  | .ok s => processTopic 50 s "/b" parent2
  | .error e => ([], .error e)

/-- The column list of a nesting-enabled type table holding one user
field `x` — note the row-id column is named `_id`, and no column is
named `id`. -/
def childCols : List (String × String) :=
  [("x", "int32")] ++ MESSAGE_TYPE_TOPICCOLS ++ MESSAGE_TYPE_BASECOLS ++ MESSAGE_TYPE_NESTCOLS

/-- A store holding one such (empty) type table. -/
def c2db : DB :=
  { emptyDB with typeTables := [("pkg/Child", ⟨childCols, []⟩)] }

/-- An open nesting session over that store with no id counter seeded. -/
def c2state : S :=
  { freshSink (some "all") 1000 c2db with conn := some c2db }

/-- A queued messages-table insert. -/
def c1row : MsgRow :=
  ⟨1, 5, .str "raw:pkg/Flat", "/f", "pkg/Flat", 5, .str "yaml:pkg/Flat"⟩

/-- An open batched-mode sink (threshold 2) with one emitted record and
its statement still pending in the queue. -/
def c1state : S :=
  let base := freshSink none 2 emptyDB
  { base with conn := some emptyDB,
              sqlQueue := [(insertMessageSql, [Stmt.insertMessage c1row])],
              counts := 1 }

/-- T = 3 batched session over an empty store: two flat records emitted. -/
def c5afterTwo : Re S :=
  bindRe (emitMsg (freshSink none 3 emptyDB) "/f" 10 flatMsg) fun s =>
    emitMsg s "/f" 11 flatMsg

/-- Pre-existing topic row of ("/scan", "h1"): count 5, seeded stamps. -/
def c9row1 : TopicRow :=
  ⟨1, "/scan", "pkg/T", "h1", "pkg/T", none, 5, some 50, some 60, some 50, some 60⟩

/-- Pre-existing topic row of ("/scan", "h2"): same topic name and type
name, different definition hash, no records yet. -/
def c9row2 : TopicRow :=
  ⟨2, "/scan", "pkg/T", "h2", "pkg/T (h2)", none, 0, none, none, none, none⟩

/-- Types rows matching the two topic rows. -/
def c9types : List TypeRow :=
  [⟨1, "pkg/T", "h1", getMessageDefinition "pkg/T", "pkg/T", []⟩,
   ⟨2, "pkg/T", "h2", getMessageDefinition "pkg/T", "pkg/T (h2)", []⟩]

/-- The non-nesting column list of the two `pkg/T` tables. -/
def c9cols : List (String × String) :=
  [("v", "int32")] ++ MESSAGE_TYPE_TOPICCOLS ++ MESSAGE_TYPE_BASECOLS

/-- The pre-existing store of the topic-update scenario. -/
def c9db : DB :=
  { emptyDB with topics := [c9row1, c9row2], types := c9types,
                 typeTables := [("pkg/T", ⟨c9cols, []⟩), ("pkg/T (h2)", ⟨c9cols, []⟩)] }

/-- A record of type ("pkg/T", "h2"). -/
def c9msg : Msg :=
  ⟨"pkg/T", "h2", [("v", .scalar (.int 1) "int32")]⟩

/-- Extracts the (hash, count) projection of the store's topic rows
after a successful run; `none` on error or closed handle. -/
def runTopicCounts (r : Re S) : Option (List (String × Nat)) :=
  match r.2 with
  | .ok s => s.conn.map fun db => db.topics.map fun t => (t.md5, t.count)
  | .error _ => none

/-! ## The flat batched session (claim C5) -/

/-- The in-memory topics-catalog row of the flat session's only topic,
as the first emit creates it. -/
def flatTopicRow : TopicRow :=
  ⟨1, "/f", "pkg/Flat", "hf", "pkg/Flat", some "/f", 0, none, none, none, none⟩

/-- The types-catalog row of the flat type. -/
def flatTypeRow : TypeRow :=
  ⟨1, "pkg/Flat", "hf", getMessageDefinition "pkg/Flat", "pkg/Flat", []⟩

/-- The queue key of the flat type's per-type inserts. -/
def flatInsertSql : String :=
  insertTypedRowSql "pkg/Flat" ["x", "_topic", "_topic_id", "_dt", "_timestamp"]

/-- The messages-table insert statement of a flat record at `stamp`. -/
def flatMsgStmt (stamp : Int) : Stmt :=
  .insertMessage ⟨1, stamp, messageData flatMsg, "/f", "pkg/Flat", stamp, formatMessage flatMsg⟩

/-- The topic-update statement of a flat record at `stamp`. -/
def flatTopicStmt (stamp : Int) : Stmt :=
  .updateTopic "/f" "pkg/Flat" stamp stamp

/-- The per-type insert statement of a flat record at `stamp`. -/
def flatInsertStmt (stamp : Int) : Stmt :=
  .insertTypedRow "pkg/Flat" ["x", "_topic", "_topic_id", "_dt", "_timestamp"]
    [.int 7, .str "/f", .int 1, .int stamp, .int stamp]

/-- The statement kinds the flat session queues: message inserts, topic
updates, and inserts into the flat type's table. -/
def benignFlat : Stmt → Bool
  | .insertMessage _ => true
  | .updateTopic _ _ _ _ => true
  | .insertTypedRow table _ _ => table = "pkg/Flat"
  | .updateSubIds _ _ _ => false

/-- Invariant of the flat batched session between emits: nesting off,
commit interval `T`, the flat topic checked and catalogued, the flat
table present in the open store, and the queue holding the session's
three statement templates with `k` pending statements each (the queue
is the empty dict right after a flush). -/
def FlatInv (T k : Nat) (s : S) : Prop :=
  s.nesting = none ∧ s.commitInterval = T ∧
  ("/f", "hf") ∈ s.checkedTopics ∧
  alookup ("/f", "hf") s.topics = some flatTopicRow ∧
  alookup ("pkg/Flat", "hf") s.types = some flatTypeRow ∧
  (∃ db, s.conn = some db ∧ (alookup "pkg/Flat" db.typeTables).isSome = true) ∧
  ((k = 0 ∧ s.sqlQueue = []) ∨
    (∃ l1 l2 l3,
      s.sqlQueue = [(insertMessageSql, l1), (updateTopicSql, l2), (flatInsertSql, l3)] ∧
      l1.length = k ∧ l2.length = k ∧ l3.length = k ∧
      (l1 ++ l2 ++ l3).all benignFlat = true))

/-- The flat session's state after its first emitted record under
commit interval 7 (a concrete state satisfying the invariant at k = 1). -/
def c5invState : S :=
  match (emitMsg (freshSink none 7 emptyDB) "/f" 10 flatMsg).2 with
  | .ok s => s
  | .error _ => freshSink none 7 emptyDB

/-- Property of an operation step from state `s` with trace `tr` to
state `s'`: the schema catalog only grows, and every drop-and-create
action in the trace was issued for a type key that had no schema entry
when the operation started. -/
def MonoGate (s : S) (tr : List DbAct) (s' : S) : Prop :=
  (∀ k : String × String, alookup k s.schema ≠ none → alookup k s'.schema ≠ none) ∧
  (∀ (tk : String × String) (tbl : String),
    DbAct.createTypeTable tk tbl ∈ tr → alookup tk s.schema = none)

/-! ## Helper lemmas -/

theorem alookup_aset {κ α : Type} [DecidableEq κ] (k k' : κ) (v : α) :
    ∀ (l : List (κ × α)),
      alookup k (aset k' v l) = if k = k' then some v else alookup k l := by
  intro l
  induction l with
  | nil => simp [aset, alookup]
  | cons hd tl ih =>
      match hd with
      | (k0, v0) =>
          rw [aset]
          by_cases h0 : k' = k0
          · rw [if_pos h0, alookup, alookup]
            subst h0
            by_cases hk : k = k'
            · simp [hk]
            · simp [hk]
          · rw [if_neg h0, alookup, alookup, ih]
            by_cases hk : k = k0
            · have hne : k0 ≠ k' := fun e => h0 e.symm
              have hne' : k ≠ k' := hk ▸ hne
              simp [hk, hne, hne']
            · simp [hk]

theorem alookup_aset_ne_none {κ α : Type} [DecidableEq κ] (k k' : κ) (v : α)
    (l : List (κ × α)) (h : alookup k l ≠ none) : alookup k (aset k' v l) ≠ none := by
  rw [alookup_aset]
  split
  · exact Option.some_ne_none v
  · exact h

theorem bindRe_ok_inv {α β : Type} {x : Re α} {f : α → Re β} {tr : List DbAct} {b : β}
    (h : bindRe x f = (tr, .ok b)) :
    ∃ tr1 a tr2, x = (tr1, .ok a) ∧ f a = (tr2, .ok b) ∧ tr = tr1 ++ tr2 := by
  unfold bindRe at h
  match x with
  | (trx, rx) =>
      cases rx with
      | error e => simp at h
      | ok a =>
          dsimp only at h
          match hf : f a with
          | (tr2, r2) =>
              rw [hf] at h
              dsimp only at h
              cases r2 with
              | error e => simp at h
              | ok b' =>
                  have h1 := congrArg Prod.fst h
                  have h2 := congrArg Prod.snd h
                  dsimp only at h1 h2
                  cases h2
                  exact ⟨trx, a, tr2, rfl, hf, h1.symm⟩

theorem monoGate_comp {s1 s2 s3 : S} {t1 t2 : List DbAct}
    (h1 : MonoGate s1 t1 s2) (h2 : MonoGate s2 t2 s3) : MonoGate s1 (t1 ++ t2) s3 := by
  refine ⟨fun k hk => h2.1 k (h1.1 k hk), fun tk tbl hm => ?_⟩
  rcases List.mem_append.mp hm with hl | hr
  · exact h1.2 tk tbl hl
  · by_contra hne
    exact (h1.1 tk hne) (h2.2 tk tbl hr)

theorem monoGate_trivial {s s' : S} {tr : List DbAct}
    (hs : s.schema = s'.schema)
    (hn : ∀ tk tbl, DbAct.createTypeTable tk tbl ∉ tr) : MonoGate s tr s' :=
  ⟨fun _k hk => hs ▸ hk, fun tk tbl hm => absurd hm (hn tk tbl)⟩

theorem monoGate_refl (s : S) : MonoGate s [] s :=
  monoGate_trivial rfl (fun _tk _tbl hm => List.not_mem_nil _ hm)

theorem monoGate_create {s s' : S} {typekey : String × String} {tbl : String}
    {cols : List String}
    (hguard : alookup typekey s.schema = none)
    (hs : s'.schema = aset typekey cols s.schema) :
    MonoGate s [DbAct.createTypeTable typekey tbl] s' := by
  constructor
  · intro k hk
    rw [hs]
    exact alookup_aset_ne_none _ _ _ _ hk
  · intro tk tb hm
    simp only [List.mem_singleton, DbAct.createTypeTable.injEq] at hm
    rw [hm.1]
    exact hguard

theorem ptChildren_mono_gate
    (f : S → Msg → Re S)
    (hf : ∀ s m tr s', f s m = (tr, .ok s') → MonoGate s tr s') :
    ∀ (l : List (String × MsgEntry)) (s : S) (nt : List (String × String))
      (tr : List DbAct) (out : S × List (String × String)),
      ptChildren f s nt l = (tr, .ok out) → MonoGate s tr out.1 := by
  intro l
  induction l with
  | nil =>
      intro s nt tr out h
      rw [ptChildren] at h
      cases h
      exact monoGate_refl s
  | cons hd rest ih =>
      intro s nt tr out h
      match hd with
      | (path, entry) =>
          cases entry with
          | one sub =>
              rw [ptChildren] at h
              split at h
              · exact ih s nt tr out h
              · obtain ⟨tr1, s', tr2, hf1, h2, htr⟩ := bindRe_ok_inv h
                subst htr
                exact monoGate_comp (hf _ _ _ _ hf1) (ih _ _ _ _ h2)
          | many tn th subs =>
              rw [ptChildren] at h
              obtain ⟨tr1, s', tr2, hf1, h2, htr⟩ := bindRe_ok_inv h
              subst htr
              exact monoGate_comp (hf _ _ _ _ hf1) (ih _ _ _ _ h2)

theorem ptUpdateNested_mono_gate {typekey : String × String}
    {nt : List (String × String)} {s3 : S} {tr : List DbAct} {s' : S}
    (h : ptUpdateNested typekey nt s3 = (tr, .ok s')) : MonoGate s3 tr s' := by
  unfold ptUpdateNested at h
  split at h
  · cases h
    exact monoGate_refl s3
  · split at h
    · injection h with h1 h2
      injection h2 with h2
      subst h1
      subst h2
      exact monoGate_trivial rfl (by intro tk tbl hm; simp at hm)
    · simp at h

theorem processTypeTail_mono_gate
    (recur : S → Msg → Re S)
    (hrec : ∀ s m tr s', recur s m = (tr, .ok s') → MonoGate s tr s')
    (fuelLeaf : Nat) (typekey : String × String) (m : Msg) (s1 : S)
    (tr : List DbAct) (s' : S)
    (h : processTypeTail recur fuelLeaf typekey m s1 = (tr, .ok s')) :
    MonoGate s1 tr s' := by
  unfold processTypeTail at h
  split at h
  case h_2 => simp at h
  case h_1 trow db1 heq1 heq2 =>
    split at h
    case isTrue hsch =>
      dsimp only at h
      split at h
      · simp at h
      · next tr3 s3 nt heq3 =>
          split at h
          · simp at h
          · next tr4 s4 heq4 =>
              injection h with h1 h2
              injection h2 with h2
              subst h1
              subst h2
              have hB := ptChildren_mono_gate recur hrec _ _ _ _ _ heq3
              have hC := ptUpdateNested_mono_gate heq4
              exact monoGate_comp
                (monoGate_comp
                  (monoGate_create (Option.isNone_iff_eq_none.mp hsch) rfl) hB)
                ⟨hC.1, hC.2⟩
    case isFalse hsch =>
      dsimp only at h
      split at h
      · simp at h
      · next tr3 s3 nt heq3 =>
          split at h
          · simp at h
          · next tr4 s4 heq4 =>
              injection h with h1 h2
              injection h2 with h2
              subst h1
              subst h2
              have hB := ptChildren_mono_gate recur hrec _ _ _ _ _ heq3
              have hC := ptUpdateNested_mono_gate heq4
              exact monoGate_comp (monoGate_comp (monoGate_refl s1) hB) ⟨hC.1, hC.2⟩

theorem processType_mono_gate :
    ∀ (fuel : Nat) (s : S) (m : Msg) (tr : List DbAct) (s' : S),
      processType fuel s m = (tr, .ok s') → MonoGate s tr s' := by
  intro fuel
  induction fuel with
  | zero =>
      intro s m tr s' h
      rw [processType] at h
      simp at h
  | succ fuel ih =>
      intro s m tr s' h
      rw [processType] at h
      split at h
      · injection h with h1 h2
        injection h2 with h2
        subst h1
        subst h2
        exact monoGate_refl s
      · split at h
        · simp at h
        · next db0 heq0 =>
            dsimp only at h
            unfold prependTr at h
            split at h
            case isTrue hnew =>
              have h2 := congrArg Prod.snd h
              have h1 := congrArg Prod.fst h
              dsimp only at h1 h2
              have htail := processTypeTail_mono_gate (processType fuel) ih _ _ _ _ _ _
                (show _ = (_, Except.ok s') by rw [← h2])
              rw [← h1]
              exact monoGate_comp
                (monoGate_trivial rfl (by intro tk tbl hm; simp at hm)) htail
            case isFalse hnew =>
              have h2 := congrArg Prod.snd h
              have h1 := congrArg Prod.fst h
              dsimp only at h1 h2
              have htail := processTypeTail_mono_gate (processType fuel) ih _ _ _ _ _ _
                (show _ = (_, Except.ok s') by rw [← h2])
              rw [← h1]
              exact monoGate_comp (monoGate_refl s) htail

theorem alookup_mem {κ α : Type} [DecidableEq κ] (k : κ) (v : α) :
    ∀ (l : List (κ × α)), alookup k l = some v → (k, v) ∈ l := by
  intro l
  induction l with
  | nil => intro h; simp [alookup] at h
  | cons hd tl ih =>
      intro h
      match hd with
      | (k', v') =>
          rw [alookup] at h
          by_cases hk : k = k'
          · subst hk
            simp at h
            subst h
            exact List.mem_cons_self _ _
          · rw [if_neg hk] at h
            exact List.mem_cons_of_mem _ (ih h)

theorem hash_suffix_ne (n h : String) : n ++ " (" ++ h ++ ")" ≠ n := by
  intro e
  have hl := congrArg String.length e
  have e1 : (" (" : String).length = 2 := rfl
  have e2 : (")" : String).length = 1 := rfl
  rw [String.length_append, String.length_append, String.length_append, e1, e2] at hl
  omega

theorem map_id_of_mem {α : Type} (f : α → α) :
    ∀ (l : List α), (∀ x ∈ l, f x = x) → l.map f = l := by
  intro l
  induction l with
  | nil => intro _; rfl
  | cons x xs ih =>
      intro h
      simp only [List.map_cons]
      rw [h x (List.mem_cons_self _ _), ih fun y hy => h y (List.mem_cons_of_mem _ hy)]

/-! ## Claim C1 -/

theorem flushQueue_no_commit : ∀ (q : List (String × List Stmt)) (db : DB),
    DbAct.commit ∉ (flushQueue db q).1 := by
  intro q
  induction q with
  | nil => intro db; simp [flushQueue]
  | cons e rest ih =>
      intro db
      match e with
      | (sql, stmts) =>
          rw [flushQueue]
          cases applyStmts db stmts with
          | error e => simp
          | ok db' =>
              dsimp only
              cases hf : flushQueue db' rest with
              | mk tr r =>
                  dsimp only
                  intro hm
                  rcases List.mem_cons.mp hm with h | h
                  · exact DbAct.noConfusion h
                  · have := ih db'
                    rw [hf] at this
                    exact this h

theorem close_never_commits : ∀ (s : S) (tr : List DbAct) (r : Except String S),
    closeSink s = (tr, r) → DbAct.commit ∉ tr := by
  intro s tr r h
  unfold closeSink at h
  cases hc : s.conn with
  | none =>
      rw [hc] at h
      have h1 := congrArg Prod.fst h
      dsimp only [bindRe, retRe] at h1
      rw [← h1]
      exact List.not_mem_nil _
  | some db =>
      rw [hc] at h
      dsimp only at h
      cases hfq : flushQueue db s.sqlQueue with
      | mk ftr fr =>
          rw [hfq] at h
          have hnc := flushQueue_no_commit s.sqlQueue db
          rw [hfq] at hnc
          cases fr with
          | error e =>
              have h1 := congrArg Prod.fst h
              dsimp only [bindRe] at h1
              rw [← h1]
              exact hnc
          | ok db' =>
              have h1 := congrArg Prod.fst h
              dsimp only [bindRe, retRe] at h1
              rw [← h1]
              intro hm
              rw [List.append_nil] at hm
              rcases List.mem_append.mp hm with hl | hr
              · exact hnc hl
              · rcases List.mem_singleton.mp hr with h
                exact DbAct.noConfusion h

/-- C1 (code bug): `close()` never issues a commit — on every sink
state, no commit action appears in its trace; and on a concrete handle
with a positive batch threshold and a pending queue, `close()` executes
the remaining batch, releases the handle and leaves the queue empty,
its trace being exactly one `executemany` followed by the connection
close. This contradicts the spec's closing transition "flush all
pending batches, commit, release the handle": Python's sqlite3 rolls an
uncommitted implicit transaction back when the connection is closed, so
the flushed rows are lost. -/
theorem c1_close_flushes_and_releases_but_never_commits :
    (∀ (s : S) (tr : List DbAct) (r : Except String S),
      closeSink s = (tr, r) → DbAct.commit ∉ tr) ∧
    ((closeSink c1state).1 = [DbAct.execMany insertMessageSql 1, DbAct.closeConn] ∧
     DbAct.commit ∉ (closeSink c1state).1 ∧
     ∃ s', (closeSink c1state).2 = .ok s' ∧ s'.sqlQueue = [] ∧ s'.conn = none) := by
  exact ⟨close_never_commits, rfl, by decide, ⟨_, rfl, rfl, rfl⟩⟩

/-- Witness for C1 at the concrete pending-queue handle. -/
theorem c1_close_flushes_and_releases_but_never_commits_witness :
    DbAct.commit ∉ (closeSink c1state).1 :=
  c1_close_flushes_and_releases_but_never_commits.1 c1state
    (closeSink c1state).1 (closeSink c1state).2 rfl

/-! ## Claim C2 -/

/-- C2 (code bug): the first id allocation of a session does not return
one plus the table's maximum row id — the seed query of `_get_next_id`
selects `MAX(id)`, but the type tables name their row-id column `_id`
(and have no column `id`), so the query fails with "no such column: id"
on any type lacking a user field of that name. -/
theorem c2_next_id_seed_queries_missing_column :
    (getNextId c2state "pkg/Child").2 = .error "no such column: id" ∧
    "_id" ∈ childCols.map (·.1) ∧ "id" ∉ childCols.map (·.1) := by
  exact ⟨rfl, by decide, by decide⟩

/-! ## Claim C3 -/

/-- C3 (code bug): under nesting mode "all", emitting a record with one
scalar nested message field and one array field of two nested messages
does not insert three child rows — the insert of the parent row already
fails while allocating its manual id (`_get_next_id`'s seed query
references the non-existent column `id`), so the whole emit raises and
no per-type rows are inserted at all. -/
theorem c3_nested_scenario_insert_fails :
    (emitMsg (freshSink (some "all") 1000 emptyDB) "/t" 100 c3msg).2
      = .error "no such column: id" := rfl

/-! ## Claim C6 -/

/-- C6 (confirmed): reopening a store and writing zero records leaves
the persisted Type and Topic Catalogs exactly as they were before the
reopen: the connection is opened lazily on the first emit, so a session
that emits nothing — whatever records any earlier session wrote into
`db` — executes no database action at all and closes with the store
unchanged. -/
theorem c6_reopen_with_zero_records_preserves_catalogs :
    ∀ (db : DB) (nesting : Option String) (T : Nat),
      (closeSink (freshSink nesting T db)).1 = [] ∧
      (closeSink (freshSink nesting T db)).2 = .ok (freshSink nesting T db) ∧
      (freshSink nesting T db).file.types = db.types ∧
      (freshSink nesting T db).file.topics = db.topics := by
  intro db nesting T
  exact ⟨rfl, rfl, rfl, rfl⟩

/-! ## Claim C10 -/

/-- C10 (confirmed): `close()` on a handle that was never opened
performs no database action, does not fail, and leaves the handle
absent with all state untouched; and after any successful `close()` the
handle is absent, so a second `close()` is the same no-op. -/
theorem c10_close_without_open_is_noop :
    (∀ s : S, s.conn = none →
      (closeSink s).1 = [] ∧
      ∃ s', (closeSink s).2 = .ok s' ∧ s'.conn = none ∧
        s'.sqlQueue = s.sqlQueue ∧ s'.file = s.file) ∧
    (∀ (s s' : S) (tr : List DbAct), closeSink s = (tr, .ok s') → s'.conn = none) := by
  constructor
  · intro s h
    simp only [closeSink, h, bindRe, retRe]
    constructor
    · rfl
    · split
      · exact ⟨_, rfl, rfl, rfl, rfl⟩
      · exact ⟨_, rfl, h, rfl, rfl⟩
  · intro s s' tr h
    unfold closeSink at h
    cases hc : s.conn with
    | none =>
        rw [hc] at h
        simp only [bindRe, retRe] at h
        split at h
        · cases h; exact hc
        · cases h; exact hc
    | some db =>
        rw [hc] at h
        simp only [bindRe, retRe] at h
        cases hf : flushQueue db s.sqlQueue with
        | mk tr2 r =>
            rw [hf] at h
            cases r with
            | error e => simp at h
            | ok db' =>
                simp only at h
                split at h
                · cases h; rfl
                · cases h; rfl

/-- Witness for C10 at a concrete closed handle. -/
theorem c10_close_without_open_is_noop_witness :
    (closeSink (freshSink none 3 emptyDB)).1 = [] :=
  (c10_close_without_open_is_noop.1 (freshSink none 3 emptyDB) rfl).1

/-! ## Claim C8 -/

/-- C8 counterexample: under nesting mode "all", the PARENT type's own
column layout contains the linkage columns `_parent_type` and
`_parent_id` — refuting "only to the nested child type's own column
layout, never to the parent type's". -/
theorem c8_parent_layout_contains_parent_linkage :
    ∃ s, scnAfterFirst.2 = .ok s ∧
      "_parent_type" ∈ (alookup ("pkg/P1", "hp1") s.schema).getD [] ∧
      "_parent_id" ∈ (alookup ("pkg/P1", "hp1") s.schema).getD [] := by
  exact ⟨_, rfl, by decide, by decide⟩

/-- C8 amended: whenever nesting is active, schema synthesis appends
the linkage columns `_parent_type` and `_parent_id` to EVERY type's
column layout — nested child types and parent types alike. -/
theorem c8_nestcols_in_every_synthesized_layout :
    ∀ (nesting : Option String) (fuel : Nat) (m : Msg),
      nesting.isSome = true →
      ("_parent_type", "TEXT") ∈ typeTableCols nesting fuel m ∧
      ("_parent_id", "INTEGER") ∈ typeTableCols nesting fuel m := by
  intro nesting fuel m h
  constructor <;> simp [typeTableCols, h, MESSAGE_TYPE_NESTCOLS]

/-- Witness for C8 at the flat record under nesting mode "all". -/
theorem c8_nestcols_in_every_synthesized_layout_witness :
    ("_parent_type", "TEXT") ∈ typeTableCols (some "all") 5 flatMsg :=
  (c8_nestcols_in_every_synthesized_layout (some "all") 5 flatMsg rfl).1

/-! ## Claim C4 -/

/-- C4 counterexample: the nested child types ("pkg/Point", "h1") and
("pkg/Point", "h2") share a display name and have distinct definition
hashes, yet both receive the SAME synthesized table name "pkg/Point" —
`_make_name` consults only the topic catalog, where neither child is
registered — refuting the claimed distinctness for every pair of types. -/
theorem c4_nested_types_share_table_name :
    ∃ s, scnSecond.2 = .ok s ∧
      (alookup ("pkg/Point", "h1") s.types).map (fun r => r.table_name) = some "pkg/Point" ∧
      (alookup ("pkg/Point", "h2") s.types).map (fun r => r.table_name) = some "pkg/Point" ∧
      ("h1" : String) ≠ "h2" := by
  exact ⟨_, rfl, rfl, rfl, by decide⟩

/-- C4 amended: `make_name` returns the candidate name unless a table
or view of that name is registered in the TOPIC catalog under a
different definition hash, in which case it suffixes the hash and the
result differs from the candidate; hence two same-named, distinct-hash
types receive distinct and deterministic table names whenever the
first is the declared type of a topic (topic-registered) by the time
the second is named — nested child types have no topic row and may
collide. -/
theorem c4_make_name_distinct_for_topic_registered :
    ∀ (topics : List ((String × String) × TopicRow)) (k : String × String)
      (r : TopicRow) (cat n h1 h2 : String),
      h1 ≠ h2 → alookup k topics = some r → r.md5 = h1 → r.table_name = n →
      makeName topics cat n h2 = n ++ " (" ++ h2 ++ ")" ∧
      makeName topics cat n h2 ≠ n := by
  intro topics k r cat n h1 h2 hne hl hm ht
  have hmem := alookup_mem k r topics hl
  have htaken : nameTaken topics n h2 = true := by
    unfold nameTaken
    rw [List.any_eq_true]
    refine ⟨(k, r), hmem, ?_⟩
    simp only [hm, ht]
    simp [hne, Ne.symm hne]
  have hres : makeName topics cat n h2 = n ++ " (" ++ h2 ++ ")" := by
    unfold makeName
    simp [htaken]
  exact ⟨hres, by rw [hres]; exact hash_suffix_ne n h2⟩

/-- Witness for C4 at a concrete topic catalog holding the row of
("pkg/T", "h1"). -/
theorem c4_make_name_distinct_for_topic_registered_witness :
    makeName [(("/scan", "h1"), c9row1)] "table" "pkg/T" "h2"
      = "pkg/T" ++ " (" ++ "h2" ++ ")" :=
  (c4_make_name_distinct_for_topic_registered [(("/scan", "h1"), c9row1)]
    ("/scan", "h1") c9row1 "table" "pkg/T" "h1" "h2" (by decide) rfl rfl rfl).1

/-! ## Claim C9 -/

/-- C9 counterexample: the topics table holds the rows of ("/scan",
"h1") and ("/scan", "h2") — same topic name, same type name, distinct
hashes. Emitting one record of hash "h2" on "/scan" (autocommit mode)
bumps BOTH rows: the h1 row's count rises from 5 to 6 although the
record was not emitted on its (name, hash) identity — refuting "no
other topic row is updated". -/
theorem c9_emit_updates_other_hash_row :
    runTopicCounts (emitMsg (freshSink none 0 c9db) "/scan" 70 c9msg)
      = some [("h1", 6), ("h2", 1)] ∧
    c9row1.md5 ≠ c9msg.typehash ∧ c9row1.count = 5 := by
  exact ⟨by decide, by decide, rfl⟩

/-- C9 amended: `UPDATE_TOPIC` matches topic rows by (topic name, type
name) — the statement binds no hash. Every row with a different (name,
type name) pair is untouched, and a matching row is updated exactly as
claimed: count incremented by one, first columns set to the minimum of
the (null-seeded) prior and the new stamp, last columns to the maximum,
in both wall-clock and integer form; so when a single row bears the
(name, type name) pair, exactly that row is updated. -/
theorem c9_update_topic_matched_by_name_and_type :
    ∀ (pre post : List TopicRow) (r : TopicRow) (n t : String) (dt ts : Int),
      (∀ x ∈ pre, ¬(x.name = n ∧ x.typ = t)) →
      (∀ x ∈ post, ¬(x.name = n ∧ x.typ = t)) →
      r.name = n → r.typ = t →
      applyUpdateTopic n t dt ts (pre ++ r :: post)
        = pre ++ bumpTopicRow dt ts r :: post ∧
      (bumpTopicRow dt ts r).count = r.count + 1 ∧
      (bumpTopicRow dt ts r).dt_first = some (min (r.dt_first.getD dt) dt) ∧
      (bumpTopicRow dt ts r).dt_last = some (max (r.dt_last.getD dt) dt) ∧
      (bumpTopicRow dt ts r).timestamp_first = some (min (r.timestamp_first.getD ts) ts) ∧
      (bumpTopicRow dt ts r).timestamp_last = some (max (r.timestamp_last.getD ts) ts) := by
  intro pre post r n t dt ts hpre hpost hn ht
  refine ⟨?_, rfl, rfl, rfl, rfl, rfl⟩
  unfold applyUpdateTopic
  rw [List.map_append, List.map_cons, if_pos ⟨hn, ht⟩,
    map_id_of_mem _ pre (fun x hx => if_neg (hpre x hx)),
    map_id_of_mem _ post (fun x hx => if_neg (hpost x hx))]

/-- Witness for C9 at the singleton topics table. -/
theorem c9_update_topic_matched_by_name_and_type_witness :
    applyUpdateTopic "/scan" "pkg/T" 70 70 [c9row1] = [bumpTopicRow 70 70 c9row1] :=
  (c9_update_topic_matched_by_name_and_type [] [] c9row1 "/scan" "pkg/T" 70 70
    (by simp) (by simp) rfl rfl).1

/-! ## Claim C7 (counterexample) -/

/-- C7 counterexample: after the first topic, the type ("pkg/Point",
"h1") is in the schema catalog with table "pkg/Point"; processing the
second topic — whose nested child type shares the name under hash "h2"
and is NOT yet catalogued — issues a drop-and-create statement for that
very table, refuting "no drop-and-create table statement is ever issued
for that type's table during the session". -/
theorem c7_catalogued_type_table_dropped_by_hash_sibling :
    ∃ s, scnAfterFirst.2 = .ok s ∧
      alookup ("pkg/Point", "h1") s.schema ≠ none ∧
      (alookup ("pkg/Point", "h1") s.types).map (fun r => r.table_name) = some "pkg/Point" ∧
      DbAct.createTypeTable ("pkg/Point", "h2") "pkg/Point"
        ∈ (processTopic 50 s "/b" parent2).1 := by
  refine ⟨_, rfl, by decide, rfl, by decide⟩

/-- C7 amended: the drop-and-create statement is issued only for type
KEYS (name, hash) that have no schema-catalog entry at the moment of
issue — a type key already catalogued, whether created this session or
loaded during the opening transition, is never re-created under its own
key; the counterexample shows this does not protect the catalogued
type's TABLE when a different, uncatalogued type key is assigned the
same table name. -/
theorem c7_drop_create_only_for_uncatalogued_typekeys :
    ∀ (fuel : Nat) (s : S) (m : Msg) (tr : List DbAct) (s' : S)
      (tk : String × String) (tbl : String),
      processType fuel s m = (tr, .ok s') →
      DbAct.createTypeTable tk tbl ∈ tr →
      alookup tk s.schema = none := by
  intro fuel s m tr s' tk tbl h hm
  exact (processType_mono_gate fuel s m tr s' h).2 tk tbl hm

/-- Witness for C7: the fresh session's own first table creation. -/
theorem c7_drop_create_only_for_uncatalogued_typekeys_witness :
    alookup (("pkg/Flat", "hf") : String × String)
      ({ freshSink none 3 emptyDB with conn := some emptyDB } : S).schema = none :=
  c7_drop_create_only_for_uncatalogued_typekeys 1
    { freshSink none 3 emptyDB with conn := some emptyDB } flatMsg _ _
    ("pkg/Flat", "hf") "pkg/Flat" rfl (by decide)

/-! ## Claim C5 (counterexample) -/

/-- C5 counterexample: with threshold T = 3 and autocommit disabled,
after T − 1 = 2 emitted records the pending statement queue is EMPTY —
not non-empty as claimed: each flat record queues three statements
(message insert, topic update, per-type insert), the flush check runs
once per record over the total queued statement count, and 3 ≥ T fires
it on every record. -/
theorem c5_queue_empty_after_threshold_minus_one :
    ∃ s, c5afterTwo.2 = .ok s ∧ s.sqlQueue = [] ∧ queueTotal s.sqlQueue = 0 := by
  exact ⟨_, rfl, rfl, rfl⟩

/-! ## Claim C5 (amended): helper lemmas -/

theorem bindRe_pure {α β : Type} (a : α) (f : α → Re β) :
    bindRe ([], .ok a) f = f a :=
  rfl

theorem ensureExecute_queued (s : S) (st : Stmt) (hT : s.commitInterval ≠ 0) :
    ensureExecute s st
      = ([], .ok { s with sqlQueue := queuePush (stmtSql st) st s.sqlQueue }) := by
  unfold ensureExecute
  rw [if_pos hT]

theorem processTopic_skip (fuel : Nat) (s : S) (topic : String) (m : Msg)
    (h : (topic, m.typehash) ∈ s.checkedTopics) :
    processTopic fuel s topic m = ([], .ok s) := by
  unfold processTopic
  rw [if_pos h]

theorem sql_ne_topic_msg : updateTopicSql ≠ insertMessageSql := by
  decide

theorem sql_ne_flat_msg : flatInsertSql ≠ insertMessageSql := by
  decide

theorem sql_ne_flat_topic : flatInsertSql ≠ updateTopicSql := by
  decide

theorem populate_flat (fuel : Nat) (s : S) (stamp : Int)
    (htop : alookup ("/f", "hf") s.topics = some flatTopicRow)
    (hty : alookup ("pkg/Flat", "hf") s.types = some flatTypeRow)
    (hnest : s.nesting = none)
    (hT : s.commitInterval ≠ 0) :
    populateType (fuel + 1) s "/f" "pkg/Flat" flatMsg stamp none none none
      = ([], .ok (none,
          { s with sqlQueue := queuePush flatInsertSql (flatInsertStmt stamp) s.sqlQueue })) := by
  rw [populateType]
  simp only [flatMsg, Option.getD_none]
  rw [htop]
  dsimp only
  rw [hty]
  dsimp only
  simp only [hnest, Option.isSome_none, Bool.false_eq_true, if_false]
  rw [bindRe_pure]
  dsimp only
  rw [ensureExecute_queued _ _ hT]
  rw [bindRe_pure]
  dsimp only
  simp only [hnest, Option.isSome_none, Bool.false_eq_true, if_false]
  rw [popChildren]
  rw [bindRe_pure]
  rfl

theorem ensureExecute_queued_push (s : S) (q : List (String × List Stmt)) (st : Stmt)
    (hT : s.commitInterval ≠ 0) :
    ensureExecute { s with sqlQueue := q } st
      = ([], .ok { s with sqlQueue := queuePush (stmtSql st) st q }) :=
  ensureExecute_queued { s with sqlQueue := q } st hT

theorem populate_flat_push (fuel : Nat) (s : S) (q : List (String × List Stmt)) (stamp : Int)
    (htop : alookup ("/f", "hf") s.topics = some flatTopicRow)
    (hty : alookup ("pkg/Flat", "hf") s.types = some flatTypeRow)
    (hnest : s.nesting = none)
    (hT : s.commitInterval ≠ 0) :
    populateType (fuel + 1) { s with sqlQueue := q } "/f" "pkg/Flat" flatMsg stamp none none none
      = ([], .ok (none,
          { s with sqlQueue := queuePush flatInsertSql (flatInsertStmt stamp) q })) :=
  populate_flat fuel { s with sqlQueue := q } stamp htop hty hnest hT

theorem processMessage_flat_queued (s : S) (stamp : Int)
    (htop : alookup ("/f", "hf") s.topics = some flatTopicRow)
    (hty : alookup ("pkg/Flat", "hf") s.types = some flatTypeRow)
    (hnest : s.nesting = none)
    (hT : s.commitInterval ≠ 0) :
    processMessage s "/f" flatMsg stamp =
      (let q3 := queuePush flatInsertSql (flatInsertStmt stamp)
         (queuePush updateTopicSql (flatTopicStmt stamp)
           (queuePush insertMessageSql (flatMsgStmt stamp) s.sqlQueue))
       let s3 : S := { s with sqlQueue := q3 }
       if queueTotal s3.sqlQueue ≥ s.commitInterval then
         match s.conn with
         | none => ([], .error "database handle is closed")
         | some db =>
             match flushQueue db s3.sqlQueue with
             | (tr, .error e) => (tr, .error e)
             | (tr, .ok db') =>
                 (tr ++ [DbAct.commit], .ok { s3 with sqlQueue := [], conn := some db' })
       else ([], .ok s3)) := by
  unfold processMessage
  simp only [flatMsg]
  rw [htop]
  dsimp only
  rw [ensureExecute_queued _ _ hT, bindRe_pure]
  dsimp only [stmtSql]
  rw [ensureExecute_queued_push s _ _ hT, bindRe_pure]
  dsimp only [stmtSql]
  rw [show (⟨"pkg/Flat", "hf", [("x", Fv.scalar (Val.int 7) "int32")]⟩ : Msg) = flatMsg from rfl]
  rw [show (bigFuel : Nat) = 999 + 1 from rfl]
  rw [populate_flat_push 999 s _ stamp htop hty hnest hT, bindRe_pure]
  dsimp only
  rw [if_pos hT]
  rfl

theorem applyStmts_benign :
    ∀ (l : List Stmt) (db : DB),
      (∀ st ∈ l, benignFlat st = true) →
      (alookup "pkg/Flat" db.typeTables).isSome = true →
      ∃ db', applyStmts db l = .ok db' ∧
        (alookup "pkg/Flat" db'.typeTables).isSome = true := by
  intro l
  induction l with
  | nil => intro db _ hp; exact ⟨db, rfl, hp⟩
  | cons st rest ih =>
      intro db hb hp
      have hbst := hb st (List.mem_cons_self _ _)
      have hst : ∃ db1, applyStmt db st = .ok db1 ∧
          (alookup "pkg/Flat" db1.typeTables).isSome = true := by
        cases st with
        | insertMessage row => exact ⟨_, rfl, hp⟩
        | updateTopic n t dt ts => exact ⟨_, rfl, hp⟩
        | insertTypedRow table cols args =>
            have htbl : table = "pkg/Flat" := by
              simpa [benignFlat] using hbst
            subst htbl
            cases htt : alookup "pkg/Flat" db.typeTables with
            | none => rw [htt] at hp; simp at hp
            | some tt =>
                have happ : applyStmt db (Stmt.insertTypedRow "pkg/Flat" cols args) = Except.ok { db with typeTables := aset "pkg/Flat" { tt with rows := tt.rows ++ [cols.zip args] } db.typeTables } := by
                  simp [applyStmt, htt]
                exact ⟨_, happ, by simp [alookup_aset]⟩
        | updateSubIds table sets id =>
            simp [benignFlat] at hbst
      obtain ⟨db1, h1, hp1⟩ := hst
      obtain ⟨db', h2, hp2⟩ := ih db1 (fun x hx => hb x (List.mem_cons_of_mem _ hx)) hp1
      refine ⟨db', ?_, hp2⟩
      rw [applyStmts, h1]
      exact h2

theorem flushQueue_benign :
    ∀ (q : List (String × List Stmt)) (db : DB),
      (∀ e ∈ q, ∀ st ∈ e.2, benignFlat st = true) →
      (alookup "pkg/Flat" db.typeTables).isSome = true →
      ∃ tr db', flushQueue db q = (tr, .ok db') ∧
        (alookup "pkg/Flat" db'.typeTables).isSome = true := by
  intro q
  induction q with
  | nil => intro db _ hp; exact ⟨[], db, rfl, hp⟩
  | cons e rest ih =>
      intro db hb hp
      match e with
      | (sql, stmts) =>
          obtain ⟨db1, h1, hp1⟩ :=
            applyStmts_benign stmts db (hb _ (List.mem_cons_self _ _)) hp
          obtain ⟨tr2, db', h2, hp2⟩ :=
            ih db1 (fun x hx => hb x (List.mem_cons_of_mem _ hx)) hp1
          refine ⟨DbAct.execMany sql stmts.length :: tr2, db', ?_, hp2⟩
          rw [flushQueue, h1]
          dsimp only
          rw [h2]

theorem emit_flat_step (T k1 : Nat) (s : S) (stamp : Int) (l1 l2 l3 : List Stmt)
    (db : DB)
    (hnest : s.nesting = none) (hint : s.commitInterval = T) (hT : 0 < T)
    (hchk : (("/f", "hf") : String × String) ∈ s.checkedTopics)
    (htop : alookup ("/f", "hf") s.topics = some flatTopicRow)
    (hty : alookup ("pkg/Flat", "hf") s.types = some flatTypeRow)
    (hconn : s.conn = some db)
    (hdb : (alookup "pkg/Flat" db.typeTables).isSome = true)
    (hq3 : queuePush flatInsertSql (flatInsertStmt stamp)
        (queuePush updateTopicSql (flatTopicStmt stamp)
          (queuePush insertMessageSql (flatMsgStmt stamp) s.sqlQueue))
      = [(insertMessageSql, l1), (updateTopicSql, l2), (flatInsertSql, l3)])
    (hlen1 : l1.length = k1) (hlen2 : l2.length = k1) (hlen3 : l3.length = k1)
    (hben : (l1 ++ l2 ++ l3).all benignFlat = true) :
    ∃ tr s', emitMsg s "/f" stamp flatMsg = (tr, .ok s') ∧
      queueTotal s'.sqlQueue = (if T ≤ 3 * k1 then 0 else 3 * k1) ∧
      (DbAct.commit ∈ tr ↔ T ≤ 3 * k1) ∧
      FlatInv T (if T ≤ 3 * k1 then 0 else k1) s' := by
  have hT0 : s.commitInterval ≠ 0 := by rw [hint]; omega
  have hqt : queueTotal [(insertMessageSql, l1), (updateTopicSql, l2), (flatInsertSql, l3)]
      = 3 * k1 := by
    simp [queueTotal, hlen1, hlen2, hlen3]
    omega
  by_cases hflush : T ≤ 3 * k1
  · -- the pending count reaches the threshold: flush and commit
    have hballE : ∀ e ∈ [(insertMessageSql, l1), (updateTopicSql, l2), (flatInsertSql, l3)],
        ∀ st ∈ e.2, benignFlat st = true := by
      intro e he st hst
      have hb := List.all_eq_true.mp hben st
      simp only [List.mem_cons, List.not_mem_nil, or_false] at he
      rcases he with rfl | rfl | rfl
      · exact hb (by simp [hst])
      · exact hb (by simp [hst])
      · exact hb (by simp [hst])
    obtain ⟨trF, db', hF, hdb'⟩ :=
      flushQueue_benign [(insertMessageSql, l1), (updateTopicSql, l2), (flatInsertSql, l3)]
        db hballE hdb
    have hE : emitMsg s "/f" stamp flatMsg
        = ((trF ++ [DbAct.commit]) ++ [],
           .ok { s with sqlQueue := [], conn := some db', counts := s.counts + 1 }) := by
      unfold emitMsg
      have hnone : s.conn.isNone = false := by rw [hconn]; rfl
      rw [hnone]
      simp only [Bool.false_eq_true, if_false]
      dsimp only [retRe]
      rw [bindRe_pure]
      rw [processTopic_skip _ _ _ _ hchk]
      rw [bindRe_pure]
      rw [processMessage_flat_queued s stamp htop hty hnest hT0]
      dsimp only
      simp only [hq3]
      have hcond : queueTotal [(insertMessageSql, l1), (updateTopicSql, l2), (flatInsertSql, l3)]
          ≥ s.commitInterval := by
        rw [hqt, hint]
        omega
      rw [if_pos hcond, hconn]
      dsimp only
      rw [hF]
      rfl
    refine ⟨_, _, hE, ?_, ?_, ?_⟩
    · simp [queueTotal, if_pos hflush]
    · simp [hflush]
    · rw [if_pos hflush]
      exact ⟨hnest, hint, hchk, htop, hty, ⟨db', rfl, hdb'⟩, Or.inl ⟨rfl, rfl⟩⟩
  · -- below the threshold: statements stay queued
    have hE : emitMsg s "/f" stamp flatMsg
        = ([],
           .ok { s with
             sqlQueue := [(insertMessageSql, l1), (updateTopicSql, l2), (flatInsertSql, l3)],
             counts := s.counts + 1 }) := by
      unfold emitMsg
      have hnone : s.conn.isNone = false := by rw [hconn]; rfl
      rw [hnone]
      simp only [Bool.false_eq_true, if_false]
      dsimp only [retRe]
      rw [bindRe_pure]
      rw [processTopic_skip _ _ _ _ hchk]
      rw [bindRe_pure]
      rw [processMessage_flat_queued s stamp htop hty hnest hT0]
      dsimp only
      simp only [hq3]
      have hcond : ¬ (queueTotal [(insertMessageSql, l1), (updateTopicSql, l2), (flatInsertSql, l3)]
          ≥ s.commitInterval) := by
        rw [hqt, hint]
        omega
      rw [if_neg hcond]
      rfl
    refine ⟨_, _, hE, ?_, ?_, ?_⟩
    · rw [if_neg hflush]
      exact hqt
    · simp [hflush]
    · rw [if_neg hflush]
      exact ⟨hnest, hint, hchk, htop, hty, ⟨db, hconn, hdb⟩,
        Or.inr ⟨l1, l2, l3, rfl, hlen1, hlen2, hlen3, hben⟩⟩

/-- C5 amended: with threshold `T > 0` and autocommit disabled, the
flush check runs once per emitted record, after the record's three
statements (message insert, topic update, per-type insert) are queued:
at that point the queue is drained, executed and committed exactly when
the total pending statement count has reached `T`, and otherwise left
as is — so after a record the queue holds `0` or `3(k+1) < T`
statements, never "empty exactly at `T` inserted rows"; and `close()`
on an open handle always leaves the queue empty. -/
theorem c5_flush_at_statement_threshold :
    (∀ (T k : Nat) (s : S) (stamp : Int),
      0 < T → FlatInv T k s →
      ∃ tr s', emitMsg s "/f" stamp flatMsg = (tr, .ok s') ∧
        queueTotal s'.sqlQueue = (if T ≤ 3 * (k + 1) then 0 else 3 * (k + 1)) ∧
        (DbAct.commit ∈ tr ↔ T ≤ 3 * (k + 1)) ∧
        FlatInv T (if T ≤ 3 * (k + 1) then 0 else k + 1) s') ∧
    (∀ (s : S) (db : DB) (tr : List DbAct) (s' : S),
      s.conn = some db → closeSink s = (tr, .ok s') → s'.sqlQueue = []) := by
  constructor
  · intro T k s stamp hT hinv
    obtain ⟨hnest, hint, hchk, htop, hty, ⟨db, hconn, hdb⟩, hqueue⟩ := hinv
    rcases hqueue with ⟨hk0, hq⟩ | ⟨l1, l2, l3, hq, hlen1, hlen2, hlen3, hben⟩
    · subst hk0
      have hq3 : queuePush flatInsertSql (flatInsertStmt stamp)
          (queuePush updateTopicSql (flatTopicStmt stamp)
            (queuePush insertMessageSql (flatMsgStmt stamp) s.sqlQueue))
          = [(insertMessageSql, [flatMsgStmt stamp]), (updateTopicSql, [flatTopicStmt stamp]),
             (flatInsertSql, [flatInsertStmt stamp])] := by
        rw [hq]
        simp [queuePush, sql_ne_topic_msg, sql_ne_flat_msg, sql_ne_flat_topic]
      exact emit_flat_step T 1 s stamp _ _ _ db hnest hint hT hchk htop hty hconn hdb hq3
        rfl rfl rfl rfl
    · have hq3 : queuePush flatInsertSql (flatInsertStmt stamp)
          (queuePush updateTopicSql (flatTopicStmt stamp)
            (queuePush insertMessageSql (flatMsgStmt stamp) s.sqlQueue))
          = [(insertMessageSql, l1 ++ [flatMsgStmt stamp]),
             (updateTopicSql, l2 ++ [flatTopicStmt stamp]),
             (flatInsertSql, l3 ++ [flatInsertStmt stamp])] := by
        have e1 : queuePush insertMessageSql (flatMsgStmt stamp)
            [(insertMessageSql, l1), (updateTopicSql, l2), (flatInsertSql, l3)]
            = [(insertMessageSql, l1 ++ [flatMsgStmt stamp]), (updateTopicSql, l2),
               (flatInsertSql, l3)] := by
          rw [queuePush, if_pos rfl]
        have e2 : queuePush updateTopicSql (flatTopicStmt stamp)
            [(insertMessageSql, l1 ++ [flatMsgStmt stamp]), (updateTopicSql, l2),
             (flatInsertSql, l3)]
            = [(insertMessageSql, l1 ++ [flatMsgStmt stamp]),
               (updateTopicSql, l2 ++ [flatTopicStmt stamp]), (flatInsertSql, l3)] := by
          rw [queuePush, if_neg sql_ne_topic_msg, queuePush, if_pos rfl]
        have e3 : queuePush flatInsertSql (flatInsertStmt stamp)
            [(insertMessageSql, l1 ++ [flatMsgStmt stamp]),
             (updateTopicSql, l2 ++ [flatTopicStmt stamp]), (flatInsertSql, l3)]
            = [(insertMessageSql, l1 ++ [flatMsgStmt stamp]),
               (updateTopicSql, l2 ++ [flatTopicStmt stamp]),
               (flatInsertSql, l3 ++ [flatInsertStmt stamp])] := by
          rw [queuePush, if_neg sql_ne_flat_msg, queuePush, if_neg sql_ne_flat_topic,
            queuePush, if_pos rfl]
        rw [hq, e1, e2, e3]
      refine emit_flat_step T (k + 1) s stamp _ _ _ db hnest hint hT hchk htop hty hconn hdb
        hq3 ?_ ?_ ?_ ?_
      · simp [hlen1]
      · simp [hlen2]
      · simp [hlen3]
      · simp only [List.all_append, List.all_cons, List.all_nil, Bool.and_eq_true] at hben ⊢
        refine ⟨⟨⟨hben.1.1, ?_⟩, hben.1.2, ?_⟩, hben.2, ?_, trivial⟩
        all_goals simp [benignFlat, flatMsgStmt, flatTopicStmt, flatInsertStmt]
  · intro s db tr s' hconn h
    unfold closeSink at h
    rw [hconn] at h
    obtain ⟨tr1, s1, tr2, hstep, hret, htr⟩ := bindRe_ok_inv h
    dsimp only at hstep
    cases hfq : flushQueue db s.sqlQueue with
    | mk trf r =>
        rw [hfq] at hstep
        cases r with
        | error e => simp at hstep
        | ok db' =>
            dsimp only at hstep
            injection hstep with hA hB
            injection hB with hB
            subst hB
            dsimp only [retRe] at hret
            injection hret with hC hD
            injection hD with hD
            subst hD
            split
            · rfl
            · rfl

/-- Witness for C5 at the concrete flat session state with threshold 7
after one record (k = 1): the second record leaves six statements
pending. -/
theorem c5_flush_at_statement_threshold_witness :
    ∃ tr s', emitMsg c5invState "/f" 11 flatMsg = (tr, .ok s') ∧
      queueTotal s'.sqlQueue = 6 := by
  obtain ⟨tr, s', hE, hq, _, _⟩ :=
    c5_flush_at_statement_threshold.1 7 1 c5invState 11 (by decide)
      ⟨rfl, rfl, by decide, rfl, rfl, ⟨_, rfl, rfl⟩,
        Or.inr ⟨_, _, _, rfl, rfl, rfl, rfl, rfl⟩⟩
  refine ⟨tr, s', hE, ?_⟩
  simpa using hq

end GreprosSqlite
